import Mathlib

/-!
Verification of the SymCache binary format core (format constants, record
layout, reader checks, writer range finalization, and architecture parsing)
against its natural-language specification.

Pure functions of the source are translated directly; components of the
repository whose code is not available (the writer pipeline, the reader
open routine, the definition of the `Index` type) are modelled from the
specification and marked as such in their doc comments.
-/

namespace SymCache

/-! ## Byte-level helpers

Machine integers are modelled as `Nat` with explicit reductions modulo 2^32
where the width matters. -/

/-- Little-endian byte serialization of a 32-bit word: least significant
byte first. -/
def u32ToLeBytes (n : Nat) : List Nat :=
  [n % 256, n / 256 % 256, n / 65536 % 256, n / 16777216 % 256]

/-- Reading four bytes as a big-endian 32-bit word, as in
Rust `u32::from_be_bytes`: the first byte is the most significant. -/
def u32FromBeBytes : List Nat → Nat
  | [a, b, c, d] => ((a * 256 + b) * 256 + c) * 256 + d
  | _ => 0

/-- Reading four bytes as a little-endian 32-bit word, as in
Rust `u32::from_le_bytes`: the first byte is the least significant. -/
def u32FromLeBytes : List Nat → Nat
  | [a, b, c, d] => a + 256 * b + 65536 * c + 16777216 * d
  | _ => 0

/-- Byte swap of a 32-bit word, as in Rust `u32::swap_bytes`: reading the
little-endian bytes back in big-endian order. -/
def swapBytes32 (n : Nat) : Nat :=
  u32FromBeBytes (u32ToLeBytes n)

/-- Serialization of a 64-bit word in little-endian byte order. -/
def u64ToLeBytes (n : Nat) : List Nat :=
  u32ToLeBytes (n % 4294967296) ++ u32ToLeBytes (n / 4294967296)

theorem u32FromLeBytes_u32ToLeBytes (n : Nat) (h : n < 4294967296) :
    u32FromLeBytes (u32ToLeBytes n) = n := by
  simp only [u32ToLeBytes, u32FromLeBytes]
  omega

/-! ## Format constants (from `format/raw.rs`) -/

/-- The magic file preamble as individual bytes, `b"SYMC"` in the source. -/
def SYMCACHE_MAGIC_BYTES : List Nat := [0x53, 0x59, 0x4D, 0x43]

/-- The magic file preamble to identify SymCache files, defined in the
source as `u32::from_be_bytes(SYMCACHE_MAGIC_BYTES)`. -/
def SYMCACHE_MAGIC : Nat := u32FromBeBytes SYMCACHE_MAGIC_BYTES

/-- The byte-flipped magic, defined in the source as
`SYMCACHE_MAGIC.swap_bytes()`; it indicates an endianness mismatch. -/
def SYMCACHE_MAGIC_FLIPPED : Nat := swapBytes32 SYMCACHE_MAGIC

/-- The latest version of the file format, `1_000` in the source. -/
def SYMCACHE_VERSION : Nat := 1000

/-! ## The header (struct `Header` of `format/raw.rs`) -/

/-- The SymCache header, with exactly the fields of the `repr(C)` struct
`Header` in `format/raw.rs`, in declaration order: magic, version, the five
table counts, the string-pool length, and the reserved range threshold. -/
structure Header where
  magic : Nat
  version : Nat
  num_strings : Nat
  num_files : Nat
  num_functions : Nat
  num_source_locations : Nat
  num_ranges : Nat
  string_bytes : Nat
  range_threshold : Nat
deriving DecidableEq

/-- Modelled from the spec: the writer is not part of the available sources;
per §4.1 the header is serialized field by field in little-endian byte
order (`u32` fields four bytes each, the final `range_threshold` as a
`u64`), fields in the declaration order of the `Header` struct. -/
def serializeHeader (h : Header) : List Nat :=
  u32ToLeBytes h.magic ++ u32ToLeBytes h.version ++
    u32ToLeBytes h.num_strings ++ u32ToLeBytes h.num_files ++
    u32ToLeBytes h.num_functions ++ u32ToLeBytes h.num_source_locations ++
    u32ToLeBytes h.num_ranges ++ u32ToLeBytes h.string_bytes ++
    u64ToLeBytes h.range_threshold

/-- The structured errors a reader can return when opening a buffer. -/
inductive OpenError where
  | badMagic
  | endianMismatch
  | wrongVersion
deriving DecidableEq

/-- Modelled from the spec: the reader open routine is not part of the
available sources; per §4.1 and §7 the reader rejects the byte-swapped
magic as an endian mismatch (never swapping bytes to recover), rejects any
other unexpected magic as a bad magic, and rejects any version other than
`SYMCACHE_VERSION` as a wrong version. -/
def checkHeader (magic version : Nat) : Except OpenError Unit :=
  if magic = SYMCACHE_MAGIC_FLIPPED then .error .endianMismatch
  else if magic = SYMCACHE_MAGIC then
    if version = SYMCACHE_VERSION then .ok () else .error .wrongVersion
  else .error .badMagic

/-! ## Record layout

The records of `format/raw.rs` are all `repr(C)` structs. Their layout is
modelled by the C struct layout rules: each field is placed at the next
offset aligned to the alignment of the field, and the struct size is the
end offset rounded up to the struct alignment (the maximum field
alignment). Targets of the crate are 64-bit little-endian, so `u32` has
size and alignment 4 and `u64` has size and alignment 8.

The `Index`, `LineNumber` and `RelativeAddress` types are declared outside
the available sources. Modelled from the spec: each is a 32-bit integer
whose `Option` occupies four bytes, the all-bits-set word being the absent
sentinel (§3 and §9), so an optional index field has size and alignment 4. -/

/-- A field of a `repr(C)` struct: its declared name, size and alignment. -/
structure FieldSpec where
  fname : String
  fsize : Nat
  falign : Nat
deriving DecidableEq

/-- Rounds an offset up to the next multiple of an alignment. -/
def alignUp (off a : Nat) : Nat :=
  if a = 0 then off else (off + a - 1) / a * a

/-- End offset after laying out the fields in order, each at the next
suitably aligned offset. -/
def layoutEnd (fs : List FieldSpec) : Nat :=
  fs.foldl (fun off f => alignUp off f.falign + f.fsize) 0

/-- Alignment of a `repr(C)` struct: the maximum field alignment. -/
def structAlign (fs : List FieldSpec) : Nat :=
  fs.foldl (fun m f => max m f.falign) 1

/-- Size of a `repr(C)` struct: the end offset of the laid-out fields
rounded up to the struct alignment. -/
def structSize (fs : List FieldSpec) : Nat :=
  alignUp (layoutEnd fs) (structAlign fs)

/-- The fields of the `Header` struct of `format/raw.rs`, in declaration
order: eight `u32` fields followed by the `u64` field `range_threshold`. -/
def headerFields : List FieldSpec :=
  [⟨"magic", 4, 4⟩, ⟨"version", 4, 4⟩, ⟨"num_strings", 4, 4⟩,
   ⟨"num_files", 4, 4⟩, ⟨"num_functions", 4, 4⟩,
   ⟨"num_source_locations", 4, 4⟩, ⟨"num_ranges", 4, 4⟩,
   ⟨"string_bytes", 4, 4⟩, ⟨"range_threshold", 8, 8⟩]

/-- The fields of the `Function` struct: a string index, an optional
relative address (four bytes, see the layout note above), and a one-byte
language tag. -/
def functionFields : List FieldSpec :=
  [⟨"name_idx", 4, 4⟩, ⟨"entry_pc", 4, 4⟩, ⟨"lang", 1, 1⟩]

/-- The fields of the `File` struct: three optional string indices. -/
def fileFields : List FieldSpec :=
  [⟨"comp_dir_idx", 4, 4⟩, ⟨"directory_idx", 4, 4⟩, ⟨"path_name_idx", 4, 4⟩]

/-- The fields of the `SourceLocation` struct: an optional file index, an
optional line number, an optional function index, and an optional index of
the source location this one was inlined into. -/
def sourceLocationFields : List FieldSpec :=
  [⟨"file_idx", 4, 4⟩, ⟨"line", 4, 4⟩, ⟨"function_idx", 4, 4⟩,
   ⟨"inlined_into_idx", 4, 4⟩]

/-- The fields of the `String` descriptor struct: offset and length into
the string byte pool. -/
def stringFields : List FieldSpec :=
  [⟨"string_offset", 4, 4⟩, ⟨"string_len", 4, 4⟩]

/-- The single field of the tuple struct `Range`: a relative address. -/
def rangeFields : List FieldSpec :=
  [⟨"start", 4, 4⟩]

/-! ## Optional index serialization -/

/-- Modelled from the spec: the all-bits-set 32-bit word denotes an absent
index (§3, §9). -/
def ABSENT_SENTINEL : Nat := 0xFFFFFFFF

/-- Modelled from the spec: an optional index is serialized as a single
little-endian 32-bit word, a present index as its value and an absent one
as the sentinel (§9). -/
def encodeOptIndex (o : Option Nat) : List Nat :=
  u32ToLeBytes (o.getD ABSENT_SENTINEL)

/-! ## Alignment helper (`align_to_eight` of `format/raw.rs`) -/

/-- Returns the amount left to add to the remainder to get 8 if
`to_align` is not a multiple of 8. Translated from `align_to_eight`. -/
def align_to_eight (to_align : Nat) : Nat :=
  let remainder := to_align % 8
  if remainder = 0 then remainder else 8 - remainder

/-! ## Architectures (from `common/src/types.rs`) -/

/-- Errors of the common types module; `parseError` carries the message of
`ErrorKind::ParseError`. -/
inductive TypesError where
  | parseError (msg : String)
deriving DecidableEq

/-- An enum of supported architectures, with exactly the variants of
`Arch` in `common/src/types.rs`. -/
inductive Arch where
  | X86
  | X86_64
  | Arm64
  | ArmV5
  | ArmV6
  | ArmV7
  | ArmV7f
  | ArmV7s
  | ArmV7k
  | ArmV7m
  | ArmV7em
  | Other (s : String)
deriving DecidableEq

/-- Whether an `Arch` value is the catch-all `Other` variant. -/
def Arch.isOther : Arch → Bool
  | .Other _ => true
  | _ => false

/-- The tokens of a string split on whitespace, empty pieces dropped, as in
Rust `str::split_whitespace`. -/
def splitWhitespaceTokens (s : String) : List String :=
  (s.split Char.isWhitespace).filter (fun t => t ≠ "")

/-- Parses an architecture from a string. Translated from `Arch::parse`:
the eleven known names map to their variants; otherwise a string consisting
of a single whitespace-separated token becomes `Other` of that token, and
anything else is a parse error. -/
def Arch.parse (string : String) : Except TypesError Arch :=
  if string = "x86" then .ok .X86
  else if string = "x86_64" then .ok .X86_64
  else if string = "arm64" then .ok .Arm64
  else if string = "armv5" then .ok .ArmV5
  else if string = "armv6" then .ok .ArmV6
  else if string = "armv7" then .ok .ArmV7
  else if string = "armv7f" then .ok .ArmV7f
  else if string = "armv7s" then .ok .ArmV7s
  else if string = "armv7k" then .ok .ArmV7k
  else if string = "armv7m" then .ok .ArmV7m
  else if string = "armv7em" then .ok .ArmV7em
  else
    match splitWhitespaceTokens string with
    | [tok] => .ok (.Other tok)
    | _ => .error (.parseError "unknown architecture")

/-- Renders an architecture as a string. Translated from the `Display`
implementation for `Arch`. -/
def Arch.display : Arch → String
  | .X86 => "x86"
  | .X86_64 => "x86_64"
  | .Arm64 => "arm64"
  | .ArmV5 => "armv5"
  | .ArmV6 => "armv6"
  | .ArmV7 => "armv7"
  | .ArmV7f => "armv7f"
  | .ArmV7s => "armv7s"
  | .ArmV7k => "armv7k"
  | .ArmV7m => "armv7m"
  | .ArmV7em => "armv7em"
  | .Other s => s

/-! ## Writer range finalization

Modelled from the spec: the writer pipeline is not part of the available
sources. Per §4.2 step 3 the writer sorts the provisional
`(address, source_location_idx)` pairs by address, drops the later of two
consecutive entries sharing a `source_location_idx` (coalescing), and of
two entries sharing an address keeps the richer one. The choice of the
richer entry is abstracted as a function `richer` that returns one of its
two arguments. -/

/-- Ordering of provisional range entries by address (the first
component). -/
def addrLe (p q : Nat × Nat) : Prop := p.1 ≤ q.1

instance : DecidableRel addrLe := fun p q => Nat.decLe p.1 q.1

instance : IsTotal (Nat × Nat) addrLe := ⟨fun p q => Nat.le_total p.1 q.1⟩

instance : IsTrans (Nat × Nat) addrLe := ⟨fun _ _ _ h1 h2 => Nat.le_trans h1 h2⟩

/-- One pass over the address-sorted entries, keeping a current entry `p`:
a next entry with the same source location index is dropped, a next entry
with the same address is merged into the richer of the two, and otherwise
the current entry is emitted and the pass continues from the next one. -/
def coalesceFrom (richer : Nat × Nat → Nat × Nat → Nat × Nat) :
    Nat × Nat → List (Nat × Nat) → List (Nat × Nat)
  | p, [] => [p]
  | p, q :: rest =>
    if p.2 = q.2 then coalesceFrom richer p rest
    else if p.1 = q.1 then coalesceFrom richer (richer p q) rest
    else p :: coalesceFrom richer q rest

/-- Step 3 of the writer pipeline: sort the provisional
`(address, source_location_idx)` pairs by address, then coalesce. -/
def finalizeRanges (richer : Nat × Nat → Nat × Nat → Nat × Nat)
    (pairs : List (Nat × Nat)) : List (Nat × Nat) :=
  match List.insertionSort addrLe pairs with
  | [] => []
  | p :: rest => coalesceFrom richer p rest

/-- The addresses of the final ranges table, in emitted order. -/
def writerRanges (richer : Nat × Nat → Nat × Nat → Nat × Nat)
    (pairs : List (Nat × Nat)) : List Nat :=
  (finalizeRanges richer pairs).map Prod.fst

theorem coalesceFrom_ne_nil_head_fst
    (richer : Nat × Nat → Nat × Nat → Nat × Nat)
    (hr : ∀ p q, richer p q = p ∨ richer p q = q) :
    ∀ (rest : List (Nat × Nat)) (p : Nat × Nat),
      ∃ x tl, coalesceFrom richer p rest = x :: tl ∧ x.1 = p.1 := by
  intro rest
  induction rest with
  | nil => intro p; exact ⟨p, [], rfl, rfl⟩
  | cons q rest ih =>
    intro p
    simp only [coalesceFrom]
    by_cases h2 : p.2 = q.2
    · simpa [h2] using ih p
    · by_cases h1 : p.1 = q.1
      · obtain ⟨x, tl, hx, hfst⟩ := ih (richer p q)
        refine ⟨x, tl, by simp [h2, h1, hx], ?_⟩
        rcases hr p q with h | h <;> rw [hfst, h]
        exact h1.symm
      · exact ⟨p, coalesceFrom richer q rest, by simp [h2, h1], rfl⟩

theorem coalesceFrom_chain_lt
    (richer : Nat × Nat → Nat × Nat → Nat × Nat)
    (hr : ∀ p q, richer p q = p ∨ richer p q = q) :
    ∀ (rest : List (Nat × Nat)) (p : Nat × Nat),
      List.Chain' addrLe (p :: rest) →
      List.Chain' (fun a b : Nat × Nat => a.1 < b.1)
        (coalesceFrom richer p rest) := by
  intro rest
  induction rest with
  | nil => intro p _; exact List.chain'_singleton p
  | cons q rest ih =>
    intro p hc
    have hpq : addrLe p q := (List.chain'_cons.mp hc).1
    have hqrest : List.Chain' addrLe (q :: rest) := (List.chain'_cons.mp hc).2
    have hprest : List.Chain' addrLe (p :: rest) := by
      rw [List.chain'_cons']
      refine ⟨?_, (List.chain'_cons'.mp hqrest).2⟩
      intro y hy
      exact Nat.le_trans hpq ((List.chain'_cons'.mp hqrest).1 y hy)
    simp only [coalesceFrom]
    by_cases h2 : p.2 = q.2
    · simpa [h2] using ih p hprest
    · by_cases h1 : p.1 = q.1
      · have hrpq : List.Chain' addrLe (richer p q :: rest) := by
          rcases hr p q with h | h <;> rw [h]
          · exact hprest
          · exact hqrest
        simpa [h2, h1] using ih (richer p q) hrpq
      · have hlt : p.1 < q.1 := Nat.lt_of_le_of_ne hpq h1
        simp only [h2, h1, if_false, if_neg]
        rw [List.chain'_cons']
        refine ⟨?_, ih q hqrest⟩
        intro y hy
        obtain ⟨x, tl, hx, hfst⟩ := coalesceFrom_ne_nil_head_fst richer hr rest q
        rw [hx] at hy
        simp only [List.head?_cons, Option.mem_def, Option.some.injEq] at hy
        subst hy
        omega

theorem finalizeRanges_chain_lt
    (richer : Nat × Nat → Nat × Nat → Nat × Nat)
    (hr : ∀ p q, richer p q = p ∨ richer p q = q)
    (pairs : List (Nat × Nat)) :
    List.Chain' (fun a b : Nat × Nat => a.1 < b.1)
      (finalizeRanges richer pairs) := by
  have hsorted : List.Sorted addrLe (List.insertionSort addrLe pairs) :=
    List.sorted_insertionSort addrLe pairs
  unfold finalizeRanges
  cases h : List.insertionSort addrLe pairs with
  | nil => exact List.chain'_nil
  | cons p rest =>
    rw [h] at hsorted
    exact coalesceFrom_chain_lt richer hr rest p hsorted.chain'

/-! ## Claim theorems -/

/-- C1: the claim says every buffer produced by the writer starts with the
four ASCII bytes S, Y, M, C, as the repository's own tests assert. This
theorem evaluates the code at the failing input: with `SYMCACHE_MAGIC`
defined via `u32::from_be_bytes` and the header serialized little-endian as
the spec prescribes, the first four bytes of any produced buffer are
C, M, Y, S, not the magic bytes S, Y, M, C. -/
theorem magic_first_bytes_eval :
    (serializeHeader ⟨SYMCACHE_MAGIC, SYMCACHE_VERSION, 0, 0, 0, 0, 0, 0, 0⟩).take 4
        = [0x43, 0x4D, 0x59, 0x53] ∧
      (serializeHeader ⟨SYMCACHE_MAGIC, SYMCACHE_VERSION, 0, 0, 0, 0, 0, 0, 0⟩).take 4
        ≠ SYMCACHE_MAGIC_BYTES := by
  decide

/-- C2 counterexample: the claim as stated is false. The magic constant is
not ASCII "SYMC" serialized little-endian, and serializing it in
little-endian byte order does not yield the bytes C, Y, M, S. -/
theorem magic_le_bytes_counterexample :
    SYMCACHE_MAGIC ≠ u32FromLeBytes SYMCACHE_MAGIC_BYTES ∧
      u32ToLeBytes SYMCACHE_MAGIC ≠ [0x43, 0x59, 0x4D, 0x53] := by
  decide

/-- C2 amended: the 32-bit magic constant is ASCII "SYMC" interpreted as a
big-endian u32 (value 0x53594D43), and serializing it in little-endian byte
order yields the four bytes C, M, Y, S in memory order. -/
theorem magic_constant_amended :
    SYMCACHE_MAGIC = u32FromBeBytes SYMCACHE_MAGIC_BYTES ∧
      SYMCACHE_MAGIC = 0x53594D43 ∧
      u32ToLeBytes SYMCACHE_MAGIC = [0x43, 0x4D, 0x59, 0x53] := by
  decide

/-- C3 counterexample: the claim as stated is false of the `Header` struct
declared in `format/raw.rs`: its repr(C) size is not 80 bytes and it has
neither a `debug_id` nor an `arch` field. -/
theorem header_layout_counterexample :
    ¬(structSize headerFields = 80 ∧
      "debug_id" ∈ headerFields.map FieldSpec.fname ∧
      "arch" ∈ headerFields.map FieldSpec.fname) := by
  decide

/-- C3 amended: the header contains exactly magic, version, the five table
counts, string_bytes and range_threshold, in that order, with no debug_id
and no arch field; under repr(C) layout it occupies 40 bytes. -/
theorem header_layout_amended :
    headerFields.map FieldSpec.fname =
        ["magic", "version", "num_strings", "num_files", "num_functions",
          "num_source_locations", "num_ranges", "string_bytes",
          "range_threshold"] ∧
      structSize headerFields = 40 ∧
      "debug_id" ∉ headerFields.map FieldSpec.fname ∧
      "arch" ∉ headerFields.map FieldSpec.fname := by
  decide

/-- C4: the format version constant equals 1000, and the reader rejects a
buffer with the correct magic but any other version value with a
WrongVersion error. -/
theorem version_check_wrong_version (v : Nat) (h : v ≠ SYMCACHE_VERSION) :
    SYMCACHE_VERSION = 1000 ∧
      checkHeader SYMCACHE_MAGIC v = .error .wrongVersion := by
  refine ⟨rfl, ?_⟩
  unfold checkHeader
  rw [if_neg (by decide), if_pos rfl, if_neg h]

/-- Witness for C4 at the concrete version value 999. -/
theorem version_check_wrong_version_witness :
    (999 : Nat) ≠ SYMCACHE_VERSION ∧
      (SYMCACHE_VERSION = 1000 ∧
        checkHeader SYMCACHE_MAGIC 999 = .error .wrongVersion) :=
  ⟨by decide, version_check_wrong_version 999 (by decide)⟩

/-- C5: align_to_eight computes (8 - n % 8) % 8; the result is always
strictly less than 8, and adding it to the input yields a multiple of 8. -/
theorem align_to_eight_spec (n : Nat) :
    align_to_eight n = (8 - n % 8) % 8 ∧ align_to_eight n < 8 ∧
      (n + align_to_eight n) % 8 = 0 := by
  have hdef : align_to_eight n = if n % 8 = 0 then n % 8 else 8 - n % 8 := rfl
  by_cases h : n % 8 = 0
  · rw [hdef, if_pos h]
    omega
  · rw [hdef, if_neg h]
    omega

/-- C6: every optional index field is serialized as exactly 4 bytes, the
all-bits-set 32-bit word denotes absence, a present index (necessarily
strictly below the sentinel) never serializes to the absent word, and the
records holding such fields stay fixed-width (SourceLocation 16 bytes,
File 12 bytes, Function 12 bytes). -/
theorem optional_index_serialization (o : Option Nat) (i : Nat)
    (hi : i < ABSENT_SENTINEL) :
    (encodeOptIndex o).length = 4 ∧
      encodeOptIndex none = [255, 255, 255, 255] ∧
      encodeOptIndex (some i) ≠ encodeOptIndex none ∧
      structSize sourceLocationFields = 16 ∧
      structSize fileFields = 12 ∧
      structSize functionFields = 12 := by
  refine ⟨?_, by decide, ?_, by decide, by decide, by decide⟩
  · cases o <;> rfl
  · intro heq
    have heq2 : u32ToLeBytes i = u32ToLeBytes ABSENT_SENTINEL := heq
    have h1 := u32FromLeBytes_u32ToLeBytes i (Nat.lt_trans hi (by decide))
    have h2 := u32FromLeBytes_u32ToLeBytes ABSENT_SENTINEL (by decide)
    rw [heq2, h2] at h1
    omega

/-- Witness for C6 at the concrete present index 5. -/
theorem optional_index_serialization_witness :
    5 < ABSENT_SENTINEL ∧
      ((encodeOptIndex (some 5)).length = 4 ∧
        encodeOptIndex none = [255, 255, 255, 255] ∧
        encodeOptIndex (some 5) ≠ encodeOptIndex none ∧
        structSize sourceLocationFields = 16 ∧
        structSize fileFields = 12 ∧
        structSize functionFields = 12) :=
  ⟨by decide, optional_index_serialization (some 5) 5 (by decide)⟩

/-- C7: the byte-flipped magic constant is the byte swap of the magic
constant, and the reader rejects a buffer carrying it with an
EndianMismatch error whatever the version field holds; it never swaps
bytes to recover and proceed. -/
theorem flipped_magic_rejected (v : Nat) :
    SYMCACHE_MAGIC_FLIPPED = u32FromBeBytes (u32ToLeBytes SYMCACHE_MAGIC) ∧
      SYMCACHE_MAGIC_FLIPPED ≠ SYMCACHE_MAGIC ∧
      checkHeader SYMCACHE_MAGIC_FLIPPED v = .error .endianMismatch := by
  refine ⟨rfl, by decide, ?_⟩
  unfold checkHeader
  rw [if_pos rfl]

/-- C8: the ranges table produced by the writer is strictly monotonically
increasing: for every list of provisional (address, source location index)
pairs, every richer-entry choice function, and every index i with
i + 1 < num_ranges, ranges[i] < ranges[i + 1]. -/
theorem writer_ranges_strictly_monotonic
    (richer : Nat × Nat → Nat × Nat → Nat × Nat)
    (hr : ∀ p q, richer p q = p ∨ richer p q = q)
    (pairs : List (Nat × Nat)) (i : Nat)
    (h : i + 1 < (writerRanges richer pairs).length) :
    (writerRanges richer pairs).get ⟨i, Nat.lt_of_succ_lt h⟩ <
      (writerRanges richer pairs).get ⟨i + 1, h⟩ := by
  have hchain : List.Chain' (fun a b : Nat => a < b)
      (writerRanges richer pairs) := by
    unfold writerRanges
    rw [List.chain'_map]
    exact finalizeRanges_chain_lt richer hr pairs
  exact List.chain'_iff_get.mp hchain i (by omega)

/-- Witness for C8 on a concrete pair list with duplicate addresses and a
duplicate source location index. -/
theorem writer_ranges_strictly_monotonic_witness :
    (writerRanges (fun p _ => p) [(3, 1), (1, 2), (3, 2)]).get ⟨0, by decide⟩ <
      (writerRanges (fun p _ => p) [(3, 1), (1, 2), (3, 2)]).get ⟨1, by decide⟩ :=
  writer_ranges_strictly_monotonic (fun p _ => p) (fun _ _ => Or.inl rfl)
    [(3, 1), (1, 2), (3, 2)] 0 (by decide)

/-- C9: the claim says every record has a fixed compile-time size with
4-byte alignment, the in-memory Header being 32 bytes. This theorem
evaluates the modelled repr(C) layout: Function, File, SourceLocation,
String and Range match the claimed sizes and alignment, but the Header as
declared (eight u32 fields plus the u64 range_threshold) measures 40 bytes
with 8-byte alignment, contradicting the repository's own test_sizeof. -/
theorem record_sizes_eval :
    structSize functionFields = 12 ∧ structAlign functionFields = 4 ∧
      structSize fileFields = 12 ∧ structAlign fileFields = 4 ∧
      structSize sourceLocationFields = 16 ∧
      structAlign sourceLocationFields = 4 ∧
      structSize stringFields = 8 ∧ structAlign stringFields = 4 ∧
      structSize rangeFields = 4 ∧ structAlign rangeFields = 4 ∧
      structSize headerFields = 40 ∧ structAlign headerFields = 8 ∧
      ¬(structSize headerFields = 32 ∧ structAlign headerFields = 4) := by
  decide

/-- C10: each of the eleven recognized architecture names parses to its
variant and that variant displays back to the exact same string, so
parsing after formatting is the identity on all non-Other variants. -/
theorem arch_parse_display_roundtrip :
    (∀ a : Arch, a.isOther = false → Arch.parse (Arch.display a) = .ok a) ∧
      Arch.parse "x86" = .ok .X86 ∧ Arch.display .X86 = "x86" ∧
      Arch.parse "x86_64" = .ok .X86_64 ∧ Arch.display .X86_64 = "x86_64" ∧
      Arch.parse "arm64" = .ok .Arm64 ∧ Arch.display .Arm64 = "arm64" ∧
      Arch.parse "armv5" = .ok .ArmV5 ∧ Arch.display .ArmV5 = "armv5" ∧
      Arch.parse "armv6" = .ok .ArmV6 ∧ Arch.display .ArmV6 = "armv6" ∧
      Arch.parse "armv7" = .ok .ArmV7 ∧ Arch.display .ArmV7 = "armv7" ∧
      Arch.parse "armv7f" = .ok .ArmV7f ∧ Arch.display .ArmV7f = "armv7f" ∧
      Arch.parse "armv7s" = .ok .ArmV7s ∧ Arch.display .ArmV7s = "armv7s" ∧
      Arch.parse "armv7k" = .ok .ArmV7k ∧ Arch.display .ArmV7k = "armv7k" ∧
      Arch.parse "armv7m" = .ok .ArmV7m ∧ Arch.display .ArmV7m = "armv7m" ∧
      Arch.parse "armv7em" = .ok .ArmV7em ∧
      Arch.display .ArmV7em = "armv7em" := by
  refine ⟨?_, rfl, rfl, rfl, rfl, rfl, rfl, rfl, rfl, rfl, rfl, rfl, rfl,
    rfl, rfl, rfl, rfl, rfl, rfl, rfl, rfl, rfl, rfl⟩
  intro a ha
  cases a <;> first | rfl | simp [Arch.isOther] at ha

/-- Witness for C10 applying the round-trip at the concrete variant
Arm64. -/
theorem arch_parse_display_roundtrip_witness :
    Arch.isOther .Arm64 = false ∧
      Arch.parse (Arch.display .Arm64) = .ok .Arm64 :=
  ⟨rfl, arch_parse_display_roundtrip.1 .Arm64 rfl⟩

end SymCache
